import Mathlib

/-!
Shallow embedding of the abzu interpreter core (src/abzu-interpreter):
`value.rs` (numeric model), `lexer.rs` (tokenizer) and `interpreter.rs`
(evaluator), with theorems checking the specification's statements.

Modelling conventions:
* `f64` is modelled as the exact rationals `ℚ`; `f64::floor` becomes the
  rational floor and `f64::round` (round half away from zero) becomes
  `rustRound`.  All claims below involve only values on which `f64`
  arithmetic is exact, so the idealization is faithful there.
* `i64` is modelled as `ℤ` (Rust panics on overflow instead of wrapping);
  the `i64` range check of `str::parse::<i64>` is modelled explicitly.
* Rust's `%` and `/` on `i64` are truncated division: `Int.tmod` / `Int.tdiv`.
-/

namespace Abzu

/-- Model of `f64::round`: round half away from zero. -/
def rustRound (q : ℚ) : ℤ := if 0 ≤ q then ⌊q + 1/2⌋ else ⌈q - 1/2⌉

/-- `NumberError` from value.rs. -/
inductive NumberError where
  | InvalidFormat (msg : String)
  | EmptyNumber
  | MultipleDecimals
  | InvalidSexagesimalDigit (c : Char)
deriving DecidableEq, Repr

/-- `SexagesimalNum` from value.rs: integer part plus fractional part in sixtieths. -/
structure SexagesimalNum where
  integer_part : ℤ
  fractional_part : ℤ
  has_fraction : Bool
deriving DecidableEq, Repr

/-- `Value` from value.rs. -/
inductive Value where
  | Integer (i : ℤ)
  | Float (f : ℚ)
  | Sexagesimal (s : SexagesimalNum)
deriving DecidableEq, Repr

/-- `SexagesimalNum::new` from value.rs: validates the fractional part. -/
def SexagesimalNum.new (integer fractional : ℤ) : Except NumberError SexagesimalNum :=
  if fractional < 0 ∨ fractional ≥ 60 then
    .error (.InvalidFormat
      ("Fractional part must be between 0 and 59, got " ++ toString fractional))
  else
    .ok ⟨integer, fractional, fractional != 0⟩

/-- `SexagesimalNum::to_f64` from value.rs: the real-number equivalent. -/
def SexagesimalNum.to_f64 (s : SexagesimalNum) : ℚ :=
  (s.integer_part : ℚ) + (s.fractional_part : ℚ) / 60

/-- `SexagesimalNum::from_f64` from value.rs.  Note: no validation of the
rounded fractional part is performed, mirroring the source. -/
def SexagesimalNum.from_f64 (value : ℚ) : SexagesimalNum :=
  let integer_part : ℤ := ⌊value⌋
  let fractional : ℤ := rustRound ((value - (integer_part : ℚ)) * 60)
  ⟨integer_part, fractional, fractional != 0⟩

instance {ε α : Type} [DecidableEq ε] [DecidableEq α] : DecidableEq (Except ε α) := fun a b =>
  match a, b with
  | .error x, .error y =>
    if h : x = y then isTrue (by rw [h]) else isFalse (fun hh => h (Except.error.inj hh))
  | .ok x, .ok y =>
    if h : x = y then isTrue (by rw [h]) else isFalse (fun hh => h (Except.ok.inj hh))
  | .error _, .ok _ => isFalse (fun hh => Except.noConfusion hh)
  | .ok _, .error _ => isFalse (fun hh => Except.noConfusion hh)

/-- Model of Rust `str::split(sep)` on a character list: every occurrence of
the separator starts a new (possibly empty) segment. -/
def splitOnChar (sep : Char) : List Char → List (List Char)
  | [] => [[]]
  | c :: rest =>
    if c = sep then [] :: splitOnChar sep rest
    else
      match splitOnChar sep rest with
      | seg :: segs => (c :: seg) :: segs
      | [] => [[c]]

/-- `str::split` packaged back into strings. -/
def rustSplit (sep : Char) (s : String) : List String :=
  (splitOnChar sep s.data).map String.mk

/-- Numeric value of a run of decimal digit characters. -/
def digitsToNat (ds : List Char) : ℕ :=
  ds.foldl (fun acc d => acc * 10 + (d.toNat - 48)) 0

/-- Model of Rust `str::parse::<i64>`: an optional sign, then one or more
decimal digits, with the result required to fit in the `i64` range. -/
def parseI64 (s : String) : Option ℤ :=
  match s.data with
  | [] => none
  | c :: rest =>
    let sign : ℤ := if c = '-' then -1 else 1
    let digits := if c = '-' ∨ c = '+' then rest else c :: rest
    if digits.isEmpty then none
    else if digits.all Char.isDigit then
      let v : ℤ := sign * (digitsToNat digits : ℤ)
      if -(2 ^ 63) ≤ v ∧ v < 2 ^ 63 then some v else none
    else none

/-- Model of Rust `str::parse::<f64>` restricted to the decimal forms
`sign? digits (. digits)?` with at least one digit; exponents, `inf` and
`nan` are accepted by Rust but are not producible by the tokenizer, whose
number tokens hold only digits, `-` and one separator. -/
def parseF64 (s : String) : Option ℚ :=
  match s.data with
  | [] => none
  | c :: rest =>
    let sign : ℚ := if c = '-' then -1 else 1
    let body := if c = '-' ∨ c = '+' then rest else c :: rest
    let ipart := body.takeWhile Char.isDigit
    match body.dropWhile Char.isDigit with
    | [] => if ipart.isEmpty then none else some (sign * (digitsToNat ipart : ℚ))
    | '.' :: frac =>
      if frac.all Char.isDigit && !(ipart.isEmpty && frac.isEmpty) then
        some (sign * ((digitsToNat ipart : ℚ) + (digitsToNat frac : ℚ) / (10 ^ frac.length : ℚ)))
      else none
    | _ => none

/-- `parse_base10` from value.rs. -/
def parse_base10 (s : String) : Except NumberError Value :=
  let decimal_count := s.data.countP (fun c => c == '.')
  if decimal_count > 1 then .error .MultipleDecimals
  else if decimal_count = 1 then
    match parseF64 s with
    | some f => .ok (.Float f)
    | none => .error (.InvalidFormat s)
  else
    match parseI64 s with
    | some i => .ok (.Integer i)
    | none => .error (.InvalidFormat s)

/-- `parse_sexagesimal` from value.rs: exactly two segments split on `;`,
both `i64`, the fractional one in `[0, 60)`. -/
def parse_sexagesimal (s : String) : Except NumberError Value :=
  match rustSplit ';' s with
  | [p0, p1] =>
    match parseI64 p0 with
    | none => .error (.InvalidFormat p0)
    | some integer_part =>
      match parseI64 p1 with
      | none => .error (.InvalidFormat p1)
      | some fractional_part =>
        if fractional_part < 0 ∨ fractional_part ≥ 60 then
          .error (.InvalidFormat
            ("Fractional part must be between 0 and 59, got " ++ toString fractional_part))
        else
          match SexagesimalNum.new integer_part fractional_part with
          | .ok sn => .ok (.Sexagesimal sn)
          | .error e => .error e
  | _ => .error (.InvalidFormat
      ("Sexagesimal numbers must have exactly one ';' separator, got: " ++ s))

/-- `parse_sexagesimal_comma` from value.rs: one segment falls back to
base-10, two segments combine into a Float, three or more are rejected. -/
def parse_sexagesimal_comma (s : String) : Except NumberError Value :=
  match rustSplit ',' s with
  | [p0] => parse_base10 p0
  | [p0, p1] =>
    match parseI64 p0 with
    | none => .error (.InvalidFormat p0)
    | some integer_part =>
      match parseI64 p1 with
      | none => .error (.InvalidFormat p1)
      | some fractional_part =>
        if fractional_part < 0 ∨ fractional_part ≥ 60 then
          .error (.InvalidFormat
            ("Fractional part must be between 0 and 59, got " ++ toString fractional_part))
        else
          .ok (.Float ((integer_part : ℚ) + (fractional_part : ℚ) / 60))
  | _ => .error (.InvalidFormat "Multi-position base-60 numbers not yet supported")

/-- `parse_number` from value.rs: classify a numeral string in priority
order (empty, semicolon, comma, base-10). -/
def parse_number (s : String) : Except NumberError Value :=
  if s.data.isEmpty then .error .EmptyNumber
  else if s.data.contains ';' then parse_sexagesimal s
  else if s.data.contains ',' then parse_sexagesimal_comma s
  else parse_base10 s

/-- The `Display` text of each `NumberError` (the `thiserror` attributes in
value.rs), used when the evaluator wraps a numeral error in a TypeError. -/
def numberErrorMessage : NumberError → String
  | .InvalidFormat s => "Invalid number format: '" ++ s ++ "'"
  | .EmptyNumber => "Empty number string"
  | .MultipleDecimals => "Multiple decimal points in number"
  | .InvalidSexagesimalDigit c => "Invalid digit in base-60 number: '" ++ String.mk [c] ++ "'"

/-! ## Tokenizer (token.rs, lexer.rs) -/

/-- `Token` from token.rs. -/
inductive Token where
  | Identifier (name : String)
  | Number (value : String)
  | Plus
  | Minus
  | Asterisk
  | Slash
  | Assign
  | LParen
  | RParen
  | Newline
  | EOF
deriving DecidableEq, Repr

/-- `LexerError` from lexer.rs: an unexpected character and its zero-based
position in the input. -/
inductive LexerError where
  | UnexpectedCharacter (c : Char) (pos : ℕ)
deriving DecidableEq, Repr

/-- Rust `char::is_whitespace` on the ASCII range (all claim inputs are
ASCII). -/
def rustIsWhitespace (c : Char) : Bool :=
  c = ' ' || c = '\t' || c = '\r' || c = '\n' || c = '\x0b' || c = '\x0c'

/-- The loop condition of `Lexer::skip_whitespace`: whitespace other than
newline. -/
def wsNotNl (c : Char) : Bool := rustIsWhitespace c && !(c = '\n')

/-- The characters accepted by the first scanning loop of
`Lexer::read_number`: ASCII digits and the minus sign. -/
def numChar (c : Char) : Bool := c.isDigit || c = '-'

/-- The three number-separator characters of the lexer. -/
def isSepChar (c : Char) : Bool := c = '.' || c = ';' || c = ','

/-- The characters accepted by the `Lexer::read_identifier` loop
(`is_alphabetic`, underscore, ASCII digit); `Char.isAlpha` is the ASCII
restriction of `is_alphabetic`. -/
def identChar (c : Char) : Bool := c.isAlpha || c = '_' || c.isDigit

/-- `Lexer::read_number`: the consumed span (digits and minus signs, then
optionally one separator and a run of digits) and the remaining input. -/
def read_number (cs : List Char) : List Char × List Char :=
  let a := cs.takeWhile numChar
  match cs.dropWhile numChar with
  | c :: r2 =>
    if isSepChar c then (a ++ c :: r2.takeWhile Char.isDigit, r2.dropWhile Char.isDigit)
    else (a, c :: r2)
  | [] => (a, [])

/-- `Lexer::read_identifier`: the consumed span and the remaining input. -/
def read_identifier (cs : List Char) : List Char × List Char :=
  (cs.takeWhile identChar, cs.dropWhile identChar)

theorem read_number_rest_le (cs : List Char) :
    (read_number cs).2.length ≤ (cs.dropWhile numChar).length := by
  unfold read_number
  cases h : cs.dropWhile numChar with
  | nil => simp
  | cons c r2 =>
    by_cases hs : isSepChar c
    · simpa [hs] using Nat.le_succ_of_le (List.dropWhile_sublist Char.isDigit).length_le
    · simp [hs]

theorem read_number_rest_lt {c : Char} (rest : List Char) (h : numChar c = true) :
    (read_number (c :: rest)).2.length < (c :: rest).length := by
  have h1 := read_number_rest_le (c :: rest)
  rw [List.dropWhile_cons_of_pos h] at h1
  exact Nat.lt_of_le_of_lt (Nat.le_trans h1 (List.dropWhile_sublist numChar).length_le)
    (Nat.lt_succ_self rest.length)

theorem read_identifier_rest_lt {c : Char} (rest : List Char) (h : identChar c = true) :
    (read_identifier (c :: rest)).2.length < (c :: rest).length := by
  unfold read_identifier
  rw [List.dropWhile_cons_of_pos h]
  exact Nat.lt_of_le_of_lt (List.dropWhile_sublist identChar).length_le (Nat.lt_succ_self rest.length)

theorem dropWhile_ws_lt {c : Char} (rest : List Char) (h : wsNotNl c = true) :
    ((c :: rest).dropWhile wsNotNl).length < (c :: rest).length := by
  rw [List.dropWhile_cons_of_pos h]
  exact Nat.lt_of_le_of_lt (List.dropWhile_sublist wsNotNl).length_le (Nat.lt_succ_self rest.length)

/-- Model of `Lexer::peek_char().is_ascii_digit()`: at end of input Rust
peeks the NUL character, which is not a digit. -/
def peekIsDigit (rest : List Char) : Bool :=
  match rest.head? with
  | some d => d.isDigit
  | none => false

/-- The token-context test of the `-` disambiguation in `Lexer::tokenize`:
the already-emitted token list is empty or ends with an operator, the
assignment symbol, or a left parenthesis. -/
def minusNumberContext (tokens : List Token) : Bool :=
  tokens.isEmpty ||
    (match tokens.getLast? with
     | some .Plus | some .Minus | some .Asterisk | some .Slash
     | some .Assign | some .LParen => true
     | _ => false)

/-- The loop of `Lexer::tokenize`: `cs` is the remaining input, `pos` the
zero-based position of its first character, `tokens` the already-emitted
tokens. -/
def tokenizeAux (cs : List Char) (pos : ℕ) (tokens : List Token) :
    Except LexerError (List Token) :=
  match cs with
  | [] => .ok (tokens ++ [Token.EOF])
  | c :: rest =>
    if hw : c = ' ' ∨ c = '\t' ∨ c = '\r' then
      tokenizeAux ((c :: rest).dropWhile wsNotNl)
        (pos + ((c :: rest).takeWhile wsNotNl).length) tokens
    else if c = '\n' then tokenizeAux rest (pos + 1) (tokens ++ [Token.Newline])
    else if c = '+' then tokenizeAux rest (pos + 1) (tokens ++ [Token.Plus])
    else if hm : c = '-' then
      if peekIsDigit rest && minusNumberContext tokens then
        let p := read_number (c :: rest)
        tokenizeAux p.2 (pos + p.1.length) (tokens ++ [Token.Number (String.mk p.1)])
      else tokenizeAux rest (pos + 1) (tokens ++ [Token.Minus])
    else if c = '*' then tokenizeAux rest (pos + 1) (tokens ++ [Token.Asterisk])
    else if c = '/' then tokenizeAux rest (pos + 1) (tokens ++ [Token.Slash])
    else if c = '=' then tokenizeAux rest (pos + 1) (tokens ++ [Token.Assign])
    else if c = '(' then tokenizeAux rest (pos + 1) (tokens ++ [Token.LParen])
    else if c = ')' then tokenizeAux rest (pos + 1) (tokens ++ [Token.RParen])
    else if isSepChar c then .error (.UnexpectedCharacter c pos)
    else if hi : c.isAlpha || c = '_' then
      let p := read_identifier (c :: rest)
      tokenizeAux p.2 (pos + p.1.length) (tokens ++ [Token.Identifier (String.mk p.1)])
    else if hd : c.isDigit then
      let p := read_number (c :: rest)
      tokenizeAux p.2 (pos + p.1.length) (tokens ++ [Token.Number (String.mk p.1)])
    else .error (.UnexpectedCharacter c pos)
termination_by cs.length
decreasing_by
  all_goals simp_wf
  all_goals first
    | (apply dropWhile_ws_lt; rcases hw with h | h | h <;> simp [h, wsNotNl, rustIsWhitespace])
    | (apply read_number_rest_lt; simp [numChar, hd])
    | (apply read_number_rest_lt; simp [hm, numChar])
    | (apply read_identifier_rest_lt; simp [identChar, hi])
    | simp

/-- `Lexer::tokenize`, starting from the whole input. -/
def tokenize (input : String) : Except LexerError (List Token) :=
  tokenizeAux input.data 0 []

/-! ## Evaluator (interpreter.rs; the AST constructors of ast.rs as used there) -/

/-- `RuntimeError` from interpreter.rs. -/
inductive RuntimeError where
  | UndefinedVariable (name : String)
  | TypeError (msg : String)
  | DivisionByZero
  | InvalidOperator (msg : String)
deriving DecidableEq, Repr

/-- The binary and unary operator symbols of the AST. -/
inductive Operator where
  | Plus
  | Minus
  | Multiply
  | Divide
deriving DecidableEq, Repr

/-- `Expression` nodes, as matched by `Interpreter::eval_expression`. -/
inductive Expression where
  | Number (s : String)
  | Identifier (s : String)
  | Binary (op : Operator) (left right : Expression)
  | Unary (op : Operator) (e : Expression)
  | Grouped (e : Expression)
deriving DecidableEq, Repr

/-- An assignment statement; the Rust field `variable` is a Lean keyword,
so it is named `var` here. -/
structure Assignment where
  var : String
  value : Expression
deriving DecidableEq, Repr

/-- `Statement` nodes, as matched by `Interpreter::eval_statement`. -/
inductive Statement where
  | Expression (e : Expression)
  | Assignment (a : Assignment)
deriving DecidableEq, Repr

/-- A `Program` is the ordered list of its statements. -/
structure Program where
  statements : List Statement
deriving DecidableEq, Repr

/-- The `Environment` of interpreter.rs (a `HashMap<String, Value>`),
modelled as an association list where `set` shadows earlier entries and
`get` reads the newest one — observationally the map's insert/get. -/
abbrev Environment := List (String × Value)

/-- `Environment::set` (`HashMap::insert`). -/
def Environment.set (env : Environment) (name : String) (value : Value) : Environment :=
  (name, value) :: env

/-- `Environment::get` (`HashMap::get`, cloned). -/
def Environment.get (env : Environment) (name : String) : Option Value :=
  (env.find? (fun p => p.1 == name)).map (fun p => p.2)

/-- `Interpreter::add_values`.  The Rust source ends with a fallback arm
returning InvalidOperator; the nine constructor pairs above it are
exhaustive, so that arm is dead code and Lean rejects it as a redundant
alternative. -/
def add_values (left right : Value) : Except RuntimeError Value :=
  match left, right with
  | .Integer a, .Integer b => .ok (.Integer (a + b))
  | .Integer a, .Float b => .ok (.Float ((a : ℚ) + b))
  | .Float a, .Integer b => .ok (.Float (a + (b : ℚ)))
  | .Float a, .Float b => .ok (.Float (a + b))
  | .Sexagesimal a, .Sexagesimal b =>
    .ok (.Sexagesimal (SexagesimalNum.from_f64 (a.to_f64 + b.to_f64)))
  | .Sexagesimal a, .Integer b =>
    .ok (.Sexagesimal (SexagesimalNum.from_f64 (a.to_f64 + (b : ℚ))))
  | .Integer a, .Sexagesimal b =>
    .ok (.Sexagesimal (SexagesimalNum.from_f64 ((a : ℚ) + b.to_f64)))
  | .Sexagesimal a, .Float b => .ok (.Float (a.to_f64 + b))
  | .Float a, .Sexagesimal b => .ok (.Float (a + b.to_f64))

/-- `Interpreter::subtract_values` (same dead fallback arm as addition). -/
def subtract_values (left right : Value) : Except RuntimeError Value :=
  match left, right with
  | .Integer a, .Integer b => .ok (.Integer (a - b))
  | .Integer a, .Float b => .ok (.Float ((a : ℚ) - b))
  | .Float a, .Integer b => .ok (.Float (a - (b : ℚ)))
  | .Float a, .Float b => .ok (.Float (a - b))
  | .Sexagesimal a, .Sexagesimal b =>
    .ok (.Sexagesimal (SexagesimalNum.from_f64 (a.to_f64 - b.to_f64)))
  | .Sexagesimal a, .Integer b =>
    .ok (.Sexagesimal (SexagesimalNum.from_f64 (a.to_f64 - (b : ℚ))))
  | .Integer a, .Sexagesimal b =>
    .ok (.Sexagesimal (SexagesimalNum.from_f64 ((a : ℚ) - b.to_f64)))
  | .Sexagesimal a, .Float b => .ok (.Float (a.to_f64 - b))
  | .Float a, .Sexagesimal b => .ok (.Float (a - b.to_f64))

/-- `Interpreter::multiply_values` (same dead fallback arm): two
sexagesimals multiply to a Float, a sexagesimal and an integer to a
Sexagesimal. -/
def multiply_values (left right : Value) : Except RuntimeError Value :=
  match left, right with
  | .Integer a, .Integer b => .ok (.Integer (a * b))
  | .Integer a, .Float b => .ok (.Float ((a : ℚ) * b))
  | .Float a, .Integer b => .ok (.Float (a * (b : ℚ)))
  | .Float a, .Float b => .ok (.Float (a * b))
  | .Sexagesimal a, .Integer b =>
    .ok (.Sexagesimal (SexagesimalNum.from_f64 (a.to_f64 * (b : ℚ))))
  | .Integer a, .Sexagesimal b =>
    .ok (.Sexagesimal (SexagesimalNum.from_f64 ((a : ℚ) * b.to_f64)))
  | .Sexagesimal a, .Float b => .ok (.Float (a.to_f64 * b))
  | .Float a, .Sexagesimal b => .ok (.Float (a * b.to_f64))
  | .Sexagesimal a, .Sexagesimal b => .ok (.Float (a.to_f64 * b.to_f64))

/-- The division-by-zero test at the head of `Interpreter::divide_values`:
Integer zero, Float zero, or a Sexagesimal of real-number-equivalent zero. -/
def isZeroDivisor (right : Value) : Bool :=
  match right with
  | .Integer i => i == 0
  | .Float n => n == 0
  | .Sexagesimal s => s.to_f64 == 0

/-- `Interpreter::divide_values`: the zero check runs before the operator
dispatch; Integer over Integer stays Integer exactly when evenly divisible
(Rust `%` and `/` are `Int.tmod` / `Int.tdiv`); a sexagesimal divided by an
integer (or conversely) reconstructs a Sexagesimal; every other pair yields
a Float (same dead fallback arm as addition). -/
def divide_values (left right : Value) : Except RuntimeError Value :=
  if isZeroDivisor right then .error .DivisionByZero
  else
    match left, right with
    | .Integer a, .Integer b =>
      if a.tmod b = 0 then .ok (.Integer (a.tdiv b))
      else .ok (.Float ((a : ℚ) / (b : ℚ)))
    | .Integer a, .Float b => .ok (.Float ((a : ℚ) / b))
    | .Float a, .Integer b => .ok (.Float (a / (b : ℚ)))
    | .Float a, .Float b => .ok (.Float (a / b))
    | .Sexagesimal a, .Integer b =>
      .ok (.Sexagesimal (SexagesimalNum.from_f64 (a.to_f64 / (b : ℚ))))
    | .Integer a, .Sexagesimal b =>
      .ok (.Sexagesimal (SexagesimalNum.from_f64 ((a : ℚ) / b.to_f64)))
    | .Sexagesimal a, .Float b => .ok (.Float (a.to_f64 / b))
    | .Float a, .Sexagesimal b => .ok (.Float (a / b.to_f64))
    | .Sexagesimal a, .Sexagesimal b => .ok (.Float (a.to_f64 / b.to_f64))

/-- `Interpreter::negate_value`. -/
def negate_value (value : Value) : Except RuntimeError Value :=
  match value with
  | .Integer n => .ok (.Integer (-n))
  | .Float n => .ok (.Float (-n))
  | .Sexagesimal s => .ok (.Sexagesimal (SexagesimalNum.from_f64 (-s.to_f64)))

/-- `Interpreter::eval_binary_operation`. -/
def eval_binary_operation (op : Operator) (left right : Value) : Except RuntimeError Value :=
  match op with
  | .Plus => add_values left right
  | .Minus => subtract_values left right
  | .Multiply => multiply_values left right
  | .Divide => divide_values left right

/-- `Interpreter::eval_unary_operation`.  The Rust match has arms for Plus
and Minus only (the parser produces no other unary operator); the two
remaining constructors are mapped to the identity here to totalize. -/
def eval_unary_operation (op : Operator) (value : Value) : Except RuntimeError Value :=
  match op with
  | .Plus => .ok value
  | .Minus => negate_value value
  | .Multiply => .ok value
  | .Divide => .ok value

/-- `Interpreter::eval_expression`.  Expression evaluation never writes to
the environment (assignment is a statement), so the `&mut` borrow is
modelled as a read-only argument. -/
def eval_expression (expr : Expression) (env : Environment) : Except RuntimeError Value :=
  match expr with
  | .Number s =>
    match parse_number s with
    | .ok v => .ok v
    | .error e => .error (.TypeError (numberErrorMessage e))
  | .Identifier id =>
    match env.get id with
    | some v => .ok v
    | none => .error (.UndefinedVariable id)
  | .Binary op l r =>
    match eval_expression l env with
    | .error e => .error e
    | .ok lv =>
      match eval_expression r env with
      | .error e => .error e
      | .ok rv => eval_binary_operation op lv rv
  | .Unary op e =>
    match eval_expression e env with
    | .error er => .error er
    | .ok v => eval_unary_operation op v
  | .Grouped e => eval_expression e env

/-- `Interpreter::eval_statement`: the result together with the (possibly
updated) environment; a failing assignment commits nothing. -/
def eval_statement (stmt : Statement) (env : Environment) :
    Except RuntimeError Value × Environment :=
  match stmt with
  | .Expression e => (eval_expression e env, env)
  | .Assignment a =>
    match eval_expression a.value env with
    | .ok v => (.ok v, env.set a.var v)
    | .error e => (.error e, env)

/-- The statement loop of `Interpreter::eval_program`: `result` holds the
value of the last executed statement (`None` before the first). -/
def eval_statements (stmts : List Statement) (env : Environment) (result : Option Value) :
    Except RuntimeError (Option Value) × Environment :=
  match stmts with
  | [] => (.ok result, env)
  | s :: rest =>
    match eval_statement s env with
    | (.ok v, env1) => eval_statements rest env1 (some v)
    | (.error e, env1) => (.error e, env1)

/-- `Interpreter::eval_program`. -/
def eval_program (p : Program) (env : Environment) :
    Except RuntimeError (Option Value) × Environment :=
  eval_statements p.statements env none

/-! ## Theorems -/

/-- Claim C1 (code_bug): the validated constructors do reject a fractional
part outside `[0, 60)` (first two conjuncts), but `from_f64` performs no
such validation and produces `fractional_part = 60` on the input `0.9999`
(third conjunct: `round(0.9999 * 60) = round(59.994) = 60`); the violating
value is reachable through evaluator arithmetic, here `59;59 / 60` (fourth
conjunct), contradicting the stated invariant and the source's own field
comment `stored as sixtieths (0-59)`. -/
theorem C1_from_f64_breaks_fraction_invariant :
    (∃ e, SexagesimalNum.new 0 60 = Except.error e) ∧
    (∃ e, parse_number "1;60" = Except.error e) ∧
    (SexagesimalNum.from_f64 (9999 / 10000)).fractional_part = 60 ∧
    divide_values (.Sexagesimal ⟨59, 59, true⟩) (.Integer 60) =
      .ok (.Sexagesimal ⟨0, 60, true⟩) := by
  refine ⟨⟨_, rfl⟩,
    ⟨.InvalidFormat "Fractional part must be between 0 and 59, got 60", by decide⟩, ?_, ?_⟩
  · norm_num [SexagesimalNum.from_f64, rustRound, Int.fract]
  · have h : divide_values (.Sexagesimal ⟨59, 59, true⟩) (.Integer 60) =
        .ok (.Sexagesimal (SexagesimalNum.from_f64
          (SexagesimalNum.to_f64 ⟨59, 59, true⟩ / ((60 : ℤ) : ℚ)))) := by
      simp [divide_values, isZeroDivisor]
    rw [h]
    have h2 : SexagesimalNum.to_f64 ⟨59, 59, true⟩ / ((60 : ℤ) : ℚ) = 3599 / 3600 := by
      norm_num [SexagesimalNum.to_f64]
    rw [h2]
    norm_num [SexagesimalNum.from_f64, rustRound, Int.fract, SexagesimalNum.mk.injEq]

/-- Claim C5: Integer over Integer division stays Integer exactly on even
divisibility (yielding the exact quotient) and widens to the exact rational
(Float) quotient otherwise, while the other three operators always stay
Integer. -/
theorem C5_integer_integer_division (a b : ℤ) (hb : b ≠ 0) :
    (∀ k, a = b * k → divide_values (.Integer a) (.Integer b) = .ok (.Integer k)) ∧
    (¬ b ∣ a → divide_values (.Integer a) (.Integer b) = .ok (.Float ((a : ℚ) / (b : ℚ)))) ∧
    add_values (.Integer a) (.Integer b) = .ok (.Integer (a + b)) ∧
    subtract_values (.Integer a) (.Integer b) = .ok (.Integer (a - b)) ∧
    multiply_values (.Integer a) (.Integer b) = .ok (.Integer (a * b)) := by
  refine ⟨?_, ?_, rfl, rfl, rfl⟩
  · rintro k rfl
    have hz : isZeroDivisor (.Integer b) = false := by simp [isZeroDivisor, hb]
    have hm : (b * k).tmod b = 0 := Int.mul_tmod_right b k
    simp [divide_values, hz, hm, Int.mul_tdiv_cancel_left k hb]
  · intro hdvd
    have hz : isZeroDivisor (.Integer b) = false := by simp [isZeroDivisor, hb]
    have hm : a.tmod b ≠ 0 := fun h => hdvd (Int.dvd_of_tmod_eq_zero h)
    simp [divide_values, hz, hm]

/-- Claim C5 witness: `6 / 3 = Integer 2` and `5 / 2 = Float 2.5`, by the
theorem at those inputs. -/
theorem C5_integer_integer_division_witness :
    divide_values (.Integer 6) (.Integer 3) = .ok (.Integer 2) ∧
    divide_values (.Integer 5) (.Integer 2) = .ok (.Float (5 / 2)) := by
  constructor
  · exact (C5_integer_integer_division 6 3 (by decide)).1 2 (by decide)
  · have h := (C5_integer_integer_division 5 2 (by decide)).2.1 (by decide)
    rw [h]
    norm_num

/-- Claim C6: whenever the right operand is Integer zero, Float zero, or a
Sexagesimal of real-number-equivalent zero, division fails with
DivisionByZero for every left operand, because the zero test runs before
the operand-kind dispatch. -/
theorem C6_division_by_zero_checked_first (l r : Value)
    (h : r = .Integer 0 ∨ (∃ q, r = .Float q ∧ q = 0) ∨
      (∃ s, r = .Sexagesimal s ∧ s.to_f64 = 0)) :
    divide_values l r = .error .DivisionByZero := by
  rcases h with rfl | ⟨q, rfl, rfl⟩ | ⟨s, rfl, hs⟩
  · simp [divide_values, isZeroDivisor]
  · simp [divide_values, isZeroDivisor]
  · simp [divide_values, isZeroDivisor, hs]

/-- Claim C6 witness: the three divisor shapes of the claim at concrete
inputs, for a left operand of each kind. -/
theorem C6_division_by_zero_checked_first_witness :
    divide_values (.Integer 5) (.Integer 0) = .error .DivisionByZero ∧
    divide_values (.Float 1) (.Float 0) = .error .DivisionByZero ∧
    divide_values (.Sexagesimal ⟨1, 30, true⟩) (.Sexagesimal ⟨0, 0, false⟩) =
      .error .DivisionByZero := by
  refine ⟨?_, ?_, ?_⟩
  · exact C6_division_by_zero_checked_first _ _ (Or.inl rfl)
  · exact C6_division_by_zero_checked_first _ _ (Or.inr (Or.inl ⟨0, rfl, rfl⟩))
  · exact C6_division_by_zero_checked_first _ _
      (Or.inr (Or.inr ⟨⟨0, 0, false⟩, rfl, by norm_num [SexagesimalNum.to_f64]⟩))

/-- Claim C2 counterexample: on the input `2-5` the lexer emits no
subtraction operator token at all, against the claim's stated behaviour for
that very input: `read_number` greedily consumes `-` characters adjacent to
digits, so the whole input is captured as the single number token `2-5`
(which only fails later, at numeral-parse time). -/
theorem C2_counterexample_greedy_number_scan :
    tokenize "2-5" = .ok [Token.Number "2-5", Token.EOF] ∧
    Token.Minus ∉ [Token.Number "2-5", Token.EOF] := by
  constructor
  · simp [tokenize, tokenizeAux, read_number, numChar, isSepChar, peekIsDigit,
      minusNumberContext]
  · decide

/-- Claim C2 (amended): the minus disambiguation governs only a `-` that
the scan loop itself reaches (at input start, after whitespace, or after a
character that ended the previous token); such a `-` immediately followed
by a digit starts a negative numeral exactly when the emitted token stream
is empty or ends with an operator, the assignment symbol, or a left
parenthesis, and is otherwise a standalone subtraction token.  A `-`
reached inside a number scan is instead consumed into the number token, as
in `2-5`. -/
theorem C2_minus_disambiguation_amended (rest : List Char) (pos : ℕ) (tokens : List Token)
    (d : Char) (hd : d.isDigit = true) :
    tokenizeAux ('-' :: d :: rest) pos tokens =
      if minusNumberContext tokens then
        tokenizeAux (read_number ('-' :: d :: rest)).2
          (pos + (read_number ('-' :: d :: rest)).1.length)
          (tokens ++ [Token.Number (String.mk (read_number ('-' :: d :: rest)).1)])
      else tokenizeAux (d :: rest) (pos + 1) (tokens ++ [Token.Minus]) := by
  conv_lhs => rw [tokenizeAux]
  simp [peekIsDigit, hd]

/-- Claim C2 witness: the amended rule applied at `-5` after an
already-emitted number token (standalone Minus) and at the start of the
stream (negative numeral). -/
theorem C2_minus_disambiguation_amended_witness :
    tokenizeAux ['-', '5'] 2 [Token.Number "2"] =
      .ok [Token.Number "2", Token.Minus, Token.Number "5", Token.EOF] ∧
    tokenizeAux ['-', '5'] 0 [] = .ok [Token.Number "-5", Token.EOF] := by
  have h1 := C2_minus_disambiguation_amended [] 2 [Token.Number "2"] '5' (by decide)
  have h2 := C2_minus_disambiguation_amended [] 0 [] '5' (by decide)
  constructor
  · rw [h1]
    simp [minusNumberContext, tokenizeAux, read_number, numChar, isSepChar, peekIsDigit]
  · rw [h2]
    simp [minusNumberContext, tokenizeAux, read_number, numChar, isSepChar]

/-- Claim C3: for two Sexagesimal operands, addition and subtraction
combine the real-number-equivalents and reconstruct a Sexagesimal, while
multiplication and division combine them and yield a Float: whenever
division succeeds its result is a Float, never a Sexagesimal. -/
theorem C3_sexagesimal_pair_operator_kinds (a b : SexagesimalNum) :
    add_values (.Sexagesimal a) (.Sexagesimal b) =
      .ok (.Sexagesimal (SexagesimalNum.from_f64 (a.to_f64 + b.to_f64))) ∧
    subtract_values (.Sexagesimal a) (.Sexagesimal b) =
      .ok (.Sexagesimal (SexagesimalNum.from_f64 (a.to_f64 - b.to_f64))) ∧
    multiply_values (.Sexagesimal a) (.Sexagesimal b) =
      .ok (.Float (a.to_f64 * b.to_f64)) ∧
    (b.to_f64 ≠ 0 → divide_values (.Sexagesimal a) (.Sexagesimal b) =
      .ok (.Float (a.to_f64 / b.to_f64))) ∧
    (∀ v, divide_values (.Sexagesimal a) (.Sexagesimal b) = .ok v → ∃ q, v = .Float q) := by
  refine ⟨rfl, rfl, rfl, ?_, ?_⟩
  · intro hb
    simp [divide_values, isZeroDivisor, hb]
  · intro v hv
    by_cases hb : b.to_f64 = 0
    · simp [divide_values, isZeroDivisor, hb] at hv
    · simp [divide_values, isZeroDivisor, hb] at hv
      exact ⟨_, hv.symm⟩

/-- Claim C3 witness: the theorem at `1;30` and `1;30`, giving
`Float 2.25` for multiplication and `Float 1` for division. -/
theorem C3_sexagesimal_pair_operator_kinds_witness :
    multiply_values (.Sexagesimal ⟨1, 30, true⟩) (.Sexagesimal ⟨1, 30, true⟩) =
      .ok (.Float (9 / 4)) ∧
    divide_values (.Sexagesimal ⟨1, 30, true⟩) (.Sexagesimal ⟨1, 30, true⟩) =
      .ok (.Float 1) := by
  have h := C3_sexagesimal_pair_operator_kinds ⟨1, 30, true⟩ ⟨1, 30, true⟩
  constructor
  · rw [h.2.2.1]
    norm_num [SexagesimalNum.to_f64]
  · rw [h.2.2.2.1 (by norm_num [SexagesimalNum.to_f64])]
    norm_num [SexagesimalNum.to_f64]

/-- Claim C4: a Sexagesimal paired with an Integer, in either order,
reconstructs a Sexagesimal under all four operators, and this mixed pair is
the only operand-kind pair whose division result is a Sexagesimal. -/
theorem C4_sexagesimal_integer_mixed_pair (s : SexagesimalNum) (n : ℤ) :
    add_values (.Sexagesimal s) (.Integer n) =
      .ok (.Sexagesimal (SexagesimalNum.from_f64 (s.to_f64 + (n : ℚ)))) ∧
    add_values (.Integer n) (.Sexagesimal s) =
      .ok (.Sexagesimal (SexagesimalNum.from_f64 ((n : ℚ) + s.to_f64))) ∧
    subtract_values (.Sexagesimal s) (.Integer n) =
      .ok (.Sexagesimal (SexagesimalNum.from_f64 (s.to_f64 - (n : ℚ)))) ∧
    subtract_values (.Integer n) (.Sexagesimal s) =
      .ok (.Sexagesimal (SexagesimalNum.from_f64 ((n : ℚ) - s.to_f64))) ∧
    multiply_values (.Sexagesimal s) (.Integer n) =
      .ok (.Sexagesimal (SexagesimalNum.from_f64 (s.to_f64 * (n : ℚ)))) ∧
    multiply_values (.Integer n) (.Sexagesimal s) =
      .ok (.Sexagesimal (SexagesimalNum.from_f64 ((n : ℚ) * s.to_f64))) ∧
    (n ≠ 0 → divide_values (.Sexagesimal s) (.Integer n) =
      .ok (.Sexagesimal (SexagesimalNum.from_f64 (s.to_f64 / (n : ℚ))))) ∧
    (s.to_f64 ≠ 0 → divide_values (.Integer n) (.Sexagesimal s) =
      .ok (.Sexagesimal (SexagesimalNum.from_f64 ((n : ℚ) / s.to_f64)))) ∧
    (∀ l r v, divide_values l r = .ok (.Sexagesimal v) →
      (∃ a b, l = .Sexagesimal a ∧ r = .Integer b) ∨
      (∃ a b, l = .Integer a ∧ r = .Sexagesimal b)) := by
  refine ⟨rfl, rfl, rfl, rfl, rfl, rfl, ?_, ?_, ?_⟩
  · intro hn
    simp [divide_values, isZeroDivisor, hn]
  · intro hs
    simp [divide_values, isZeroDivisor, hs]
  · intro l r v hv
    cases l <;> cases r <;>
      simp [divide_values, isZeroDivisor] at hv <;>
      first
        | (left; exact ⟨_, _, rfl, rfl⟩)
        | (right; exact ⟨_, _, rfl, rfl⟩)
        | (revert hv; split_ifs <;> intro hv <;> simp_all)

/-- Claim C4 witness: the theorem at `1;30` and `2`: multiplication gives
Sexagesimal `3;0`, division gives Sexagesimal `0;45`. -/
theorem C4_sexagesimal_integer_mixed_pair_witness :
    multiply_values (.Sexagesimal ⟨1, 30, true⟩) (.Integer 2) =
      .ok (.Sexagesimal ⟨3, 0, false⟩) ∧
    divide_values (.Sexagesimal ⟨1, 30, true⟩) (.Integer 2) =
      .ok (.Sexagesimal ⟨0, 45, true⟩) := by
  have h := C4_sexagesimal_integer_mixed_pair ⟨1, 30, true⟩ 2
  constructor
  · rw [h.2.2.2.2.1]
    have h2 : SexagesimalNum.to_f64 ⟨1, 30, true⟩ * ((2 : ℤ) : ℚ) = 3 := by
      norm_num [SexagesimalNum.to_f64]
    rw [h2]
    norm_num [SexagesimalNum.from_f64, rustRound, Int.fract, SexagesimalNum.mk.injEq]
  · rw [h.2.2.2.2.2.2.1 (by decide)]
    have h2 : SexagesimalNum.to_f64 ⟨1, 30, true⟩ / ((2 : ℤ) : ℚ) = 3 / 4 := by
      norm_num [SexagesimalNum.to_f64]
    rw [h2]
    norm_num [SexagesimalNum.from_f64, rustRound, Int.fract, SexagesimalNum.mk.injEq]

/-- Claim C7: the empty numeral string fails with EmptyNumber; a string
containing a semicolon parses successfully exactly when it splits on `;`
into exactly two segments that both parse as signed 64-bit integers with
the second in `[0, 60)`, producing the Sexagesimal with those parts, and
fails with InvalidFormat in every other case. -/
theorem C7_semicolon_numeral_contract (s : String) (hne : s.data ≠ [])
    (hsemi : s.data.contains ';' = true) :
    parse_number "" = .error .EmptyNumber ∧
    (∀ v, parse_number s = .ok v ↔
      ∃ p0 p1 ip fp, rustSplit ';' s = [p0, p1] ∧ parseI64 p0 = some ip ∧
        parseI64 p1 = some fp ∧ 0 ≤ fp ∧ fp < 60 ∧
        v = .Sexagesimal ⟨ip, fp, fp != 0⟩) ∧
    ((∀ v, parse_number s ≠ .ok v) → ∃ msg, parse_number s = .error (.InvalidFormat msg)) := by
  have hsm : ';' ∈ s.data := by simpa using hsemi
  have hred : parse_number s = parse_sexagesimal s := by
    simp [parse_number, List.isEmpty_iff, hne, hsm]
  refine ⟨by decide, ?_, ?_⟩
  · intro v
    rw [hred]
    unfold parse_sexagesimal
    split
    · next p0 p1 heq =>
      cases hp0 : parseI64 p0 with
      | none =>
        simp only [hp0]
        constructor
        · intro h; exact absurd h (by simp)
        · rintro ⟨a, b, ip2, fp2, hsteq, ha, hb, h1, h2, rfl⟩
          rw [heq] at hsteq
          injection hsteq with e1 e2
          injection e2 with e2 _
          subst e1
          rw [hp0] at ha
          cases ha
      | some ip =>
        cases hp1 : parseI64 p1 with
        | none =>
          simp only [hp0, hp1]
          constructor
          · intro h; exact absurd h (by simp)
          · rintro ⟨a, b, ip2, fp2, hsteq, ha, hb, h1, h2, rfl⟩
            rw [heq] at hsteq
            injection hsteq with e1 e2
            injection e2 with e2 _
            subst e1; subst e2
            rw [hp1] at hb
            cases hb
        | some fp =>
          by_cases hr : fp < 0 ∨ fp ≥ 60
          · simp only [hp0, hp1, if_pos hr]
            constructor
            · intro h; exact absurd h (by simp)
            · rintro ⟨a, b, ip2, fp2, hsteq, ha, hb, h1, h2, rfl⟩
              rw [heq] at hsteq
              injection hsteq with e1 e2
              injection e2 with e2 _
              subst e1; subst e2
              rw [hp0] at ha; injection ha with ha
              rw [hp1] at hb; injection hb with hb
              subst ha; subst hb
              omega
          · simp only [hp0, hp1, if_neg hr, SexagesimalNum.new]
            constructor
            · intro h
              injection h with h
              refine ⟨p0, p1, ip, fp, heq, hp0, hp1, by omega, by omega, h.symm⟩
            · rintro ⟨a, b, ip2, fp2, hsteq, ha, hb, h1, h2, rfl⟩
              rw [heq] at hsteq
              injection hsteq with e1 e2
              injection e2 with e2 _
              subst e1; subst e2
              rw [hp0] at ha; injection ha with ha
              rw [hp1] at hb; injection hb with hb
              subst ha; subst hb
              rfl
    · next hcontr =>
      constructor
      · intro h; exact absurd h (by simp)
      · rintro ⟨a, b, ip2, fp2, hsteq, ha, hb, h1, h2, rfl⟩
        exact absurd hsteq (fun h => hcontr a b h)
  · intro hnone
    rw [hred] at hnone ⊢
    unfold parse_sexagesimal at hnone ⊢
    split
    · next p0 p1 heq =>
      cases hp0 : parseI64 p0 with
      | none => exact ⟨p0, by simp only [hp0]⟩
      | some ip =>
        cases hp1 : parseI64 p1 with
        | none => exact ⟨p1, by simp only [hp0, hp1]⟩
        | some fp =>
          by_cases hr : fp < 0 ∨ fp ≥ 60
          · exact ⟨"Fractional part must be between 0 and 59, got " ++ toString fp,
              by simp only [hp0, hp1, if_pos hr]⟩
          · exfalso
            apply hnone (.Sexagesimal ⟨ip, fp, fp != 0⟩)
            rw [heq]
            simp only [hp0, hp1, if_neg hr, SexagesimalNum.new]
    · exact ⟨"Sexagesimal numbers must have exactly one ';' separator, got: " ++ s, rfl⟩

/-- Claim C7 witness: the contract at `1;30` (success, with the stored
parts) and at `1;60` (InvalidFormat). -/
theorem C7_semicolon_numeral_contract_witness :
    parse_number "1;30" = .ok (.Sexagesimal ⟨1, 30, true⟩) ∧
    (∃ msg, parse_number "1;60" = .error (.InvalidFormat msg)) := by
  constructor
  · exact ((C7_semicolon_numeral_contract "1;30" (by decide) (by decide)).2.1 _).mpr
      ⟨"1", "30", 1, 30, by decide, by decide, by decide, by decide, by decide, by decide⟩
  · exact (C7_semicolon_numeral_contract "1;60" (by decide) (by decide)).2.2
      (fun v h => by
        rw [show parse_number "1;60" =
            .error (.InvalidFormat "Fractional part must be between 0 and 59, got 60") from
          by decide] at h
        cases h)

/-- Claim C8: a numeral with a comma and no semicolon that splits into
exactly two `i64` segments with the second in `[0, 60)` yields a Float
equal to `integer + fractional/60` (not a Sexagesimal), and three or more
segments fail with InvalidFormat. -/
theorem C8_comma_two_segments_yield_float (s : String) (hne : s.data ≠ [])
    (hnosemi : s.data.contains ';' = false) (hcomma : s.data.contains ',' = true) :
    (∀ p0 p1 ip fp, rustSplit ',' s = [p0, p1] → parseI64 p0 = some ip →
      parseI64 p1 = some fp → 0 ≤ fp → fp < 60 →
      parse_number s = .ok (.Float ((ip : ℚ) + (fp : ℚ) / 60))) ∧
    (3 ≤ (rustSplit ',' s).length → ∃ msg, parse_number s = .error (.InvalidFormat msg)) := by
  have hcm : ',' ∈ s.data := by simpa using hcomma
  have hsm : ';' ∉ s.data := by simpa using hnosemi
  have hred : parse_number s = parse_sexagesimal_comma s := by
    simp [parse_number, List.isEmpty_iff, hne, hsm, hcm]
  constructor
  · intro p0 p1 ip fp hsplit hp0 hp1 h1 h2
    rw [hred]
    unfold parse_sexagesimal_comma
    rw [hsplit]
    simp only [hp0, hp1]
    rw [if_neg (by omega)]
  · intro hlen
    rw [hred]
    unfold parse_sexagesimal_comma
    cases hsp : rustSplit ',' s with
    | nil => rw [hsp] at hlen; simp at hlen
    | cons a t =>
      cases t with
      | nil => rw [hsp] at hlen; simp at hlen
      | cons b t2 =>
        cases t2 with
        | nil => rw [hsp] at hlen; simp at hlen
        | cons c t3 =>
          exact ⟨"Multi-position base-60 numbers not yet supported", rfl⟩

/-- Claim C8 witness: `1,30` parses to Float 1.5 and `1,2,3` fails with
InvalidFormat, by the theorem at those inputs. -/
theorem C8_comma_two_segments_yield_float_witness :
    parse_number "1,30" = .ok (.Float (((1 : ℤ) : ℚ) + ((30 : ℤ) : ℚ) / 60)) ∧
    (∃ msg, parse_number "1,2,3" = .error (.InvalidFormat msg)) := by
  constructor
  · exact (C8_comma_two_segments_yield_float "1,30" (by decide) (by decide) (by decide)).1
      "1" "30" 1 30 (by decide) (by decide) (by decide) (by decide) (by decide)
  · exact (C8_comma_two_segments_yield_float "1,2,3" (by decide) (by decide) (by decide)).2
      (by decide)

/-- Appending statements to a successfully evaluated prefix continues the
loop from the prefix's final environment and result. -/
theorem eval_statements_append (xs ys : List Statement) (env env1 : Environment)
    (acc r : Option Value) (h : eval_statements xs env acc = (.ok r, env1)) :
    eval_statements (xs ++ ys) env acc = eval_statements ys env1 r := by
  induction xs generalizing env acc with
  | nil =>
    simp only [eval_statements] at h
    injection h with h1 h2
    injection h1 with h1
    subst h1; subst h2
    rfl
  | cons s rest ih =>
    simp only [eval_statements, List.cons_append] at h ⊢
    cases hs : eval_statement s env with
    | mk res env2 =>
      rw [hs] at h
      cases res with
      | ok v => exact ih _ _ h
      | error e => exact absurd h (by simp)

/-- Claim C9: program evaluation is strictly sequential: after a prefix
evaluates successfully, appending one more succeeding statement makes the
whole program return that statement's value and environment; if the next
statement fails, the program propagates that error immediately (whatever
follows it is never evaluated) with exactly the environment the prefix
committed, and a failing statement itself never commits a binding. -/
theorem C9_sequential_until_first_failure (pre post : List Statement) (stmt : Statement)
    (env env1 : Environment) (r : Option Value)
    (hpre : eval_statements pre env none = (.ok r, env1)) :
    (∀ v env2, eval_statement stmt env1 = (.ok v, env2) →
      eval_program ⟨pre ++ [stmt]⟩ env = (.ok (some v), env2)) ∧
    (∀ e env2, eval_statement stmt env1 = (.error e, env2) →
      eval_program ⟨pre ++ stmt :: post⟩ env = (.error e, env1) ∧ env2 = env1) := by
  constructor
  · intro v env2 hs
    show eval_statements (pre ++ [stmt]) env none = _
    rw [eval_statements_append pre [stmt] env env1 none r hpre]
    simp only [eval_statements, hs]
  · intro e env2 hs
    have henv : env2 = env1 := by
      cases stmt with
      | Expression ex =>
        simp only [eval_statement] at hs
        injection hs with _ h2
        exact h2.symm
      | Assignment a =>
        simp only [eval_statement] at hs
        cases hx : eval_expression a.value env1 with
        | ok v => rw [hx] at hs; cases hs
        | error e2 =>
          rw [hx] at hs
          injection hs with _ h2
          exact h2.symm
    subst henv
    refine ⟨?_, rfl⟩
    show eval_statements (pre ++ stmt :: post) env none = _
    rw [eval_statements_append pre (stmt :: post) env env2 none r hpre]
    simp only [eval_statements, hs]

/-- Claim C9 witness: the two-statement program `x = 1; y` fails on its
second statement with UndefinedVariable while the environment keeps the
binding `x = 1` committed by the first. -/
theorem C9_sequential_until_first_failure_witness :
    eval_program ⟨[.Assignment ⟨"x", .Number "1"⟩, .Expression (.Identifier "y")]⟩ [] =
      (.error (.UndefinedVariable "y"), [("x", .Integer 1)]) := by
  have h := C9_sequential_until_first_failure [.Assignment ⟨"x", .Number "1"⟩] []
    (.Expression (.Identifier "y")) [] [("x", .Integer 1)] (some (.Integer 1)) (by decide)
  exact (h.2 (.UndefinedVariable "y") [("x", .Integer 1)] (by decide)).1

/-- Claim C10: every one of the nine ordered pairs of value kinds is matched
explicitly in each arithmetic function, so binary evaluation never produces
an InvalidOperator error; the only possible error is DivisionByZero. -/
theorem C10_invalid_operator_unreachable (op : Operator) (l r : Value) :
    (∀ msg, eval_binary_operation op l r ≠ .error (.InvalidOperator msg)) ∧
    (∀ e, eval_binary_operation op l r = .error e → e = .DivisionByZero) := by
  cases op <;> cases l <;> cases r <;>
    simp [eval_binary_operation, add_values, subtract_values, multiply_values,
      divide_values] <;>
    split_ifs <;> simp_all

/-- Claim C10 witness: the theorem at a concrete input whose division does
error, confirming the error is DivisionByZero and not InvalidOperator. -/
theorem C10_invalid_operator_unreachable_witness :
    (RuntimeError.DivisionByZero = RuntimeError.DivisionByZero) ∧
    eval_binary_operation .Divide (.Integer 1) (.Integer 0) ≠
      .error (.InvalidOperator "Cannot divide 1 by 0") := by
  have h := C10_invalid_operator_unreachable .Divide (.Integer 1) (.Integer 0)
  exact ⟨h.2 .DivisionByZero (by decide), h.1 "Cannot divide 1 by 0"⟩

end Abzu
